import Mathlib

/-!
Verification of the legacy Azure service-management HTTP client
(`azure/servicemanagement/_http/httpclient.py`).

The Python code is shallowly embedded: Python `str` values become Lean
`String` (a structure holding a `List Char`, matching Python's
sequence-of-characters view), byte strings become `List Nat`, mutation
becomes explicit state passing, and the recursive redirect loop of
`perform_request` is driven by the list of raw transport responses (one
per hop), which also serves as the termination measure.  Connection
open/close effects are recorded in an explicit event trace.
-/

/-! ## Character-list primitives mirroring Python `str` operations -/

/-- Python `c in s` (membership of a character in a string), on the
underlying character list. -/
def listContains : List Char → Char → Bool
  | [], _ => false
  | x :: xs, c => x == c || listContains xs c

/-- Characters of `s` strictly before the first occurrence of `c`
(whole string if `c` is absent): the first component of Python
`s.partition(c)`. -/
def takeUntilChar : List Char → Char → List Char
  | [], _ => []
  | x :: xs, c => if x = c then [] else x :: takeUntilChar xs c

/-- Characters of `s` strictly after the first occurrence of `c`
(empty if `c` is absent): the last component of Python
`s.partition(c)`. -/
def afterFirstChar : List Char → Char → List Char
  | [], _ => []
  | x :: xs, c => if x = c then xs else afterFirstChar xs c

/-- Python `s.split(c)` for a single-character separator: splits on every
occurrence, keeping empty fragments. -/
def splitOnChar (c : Char) : List Char → List (List Char)
  | [] => [[]]
  | x :: xs =>
    match splitOnChar c xs with
    | [] => [[]]
    | ys :: rest => if x = c then [] :: ys :: rest else (x :: ys) :: rest

/-- Python `s.startswith(p)`. -/
def listStartsWith : List Char → List Char → Bool
  | _, [] => true
  | [], _ :: _ => false
  | x :: xs, p :: ps => x == p && listStartsWith xs ps

/-- String wrapper around `listContains` (Python `c in s`). -/
def strContains (s : String) (c : Char) : Bool :=
  listContains s.data c

/-- Python `s.partition(c)` restricted to its (before, after) components;
the middle separator component is dropped.  If `c` is absent the result
is `(s, "")`, exactly as in Python. -/
def pyPartition (s : String) (c : Char) : String × String :=
  (⟨takeUntilChar s.data c⟩, ⟨afterFirstChar s.data c⟩)

/-- Python `s.split(c)` returning strings. -/
def pySplit (s : String) (c : Char) : List String :=
  (splitOnChar c s.data).map (fun l => (⟨l⟩ : String))

/-- Python `s[:-1]`: the string with its final character removed. -/
def strDropLastChar (s : String) : String :=
  ⟨s.data.dropLast⟩

/-- Python `s.lower()` (the inputs handled by the client are ASCII, where
`Char.toLower` agrees with Python). -/
def strToLower (s : String) : String :=
  ⟨s.data.map Char.toLower⟩

/-- Python `s.startswith(p)` on strings. -/
def strStartsWith (s p : String) : Bool :=
  listStartsWith s.data p.data

/-- The part of `s` after the last occurrence of `c`; the whole of `s`
when `c` is absent.  This is `s.rpartition(c)[2]`. -/
def afterLastChar (s : String) (c : Char) : String :=
  ⟨(s.data.reverse.takeWhile (fun x => x != c)).reverse⟩

/-- The part of `s` before the last occurrence of `c`; empty when `c` is
absent.  This is `s.rpartition(c)[0]`. -/
def beforeLastChar (s : String) (c : Char) : String :=
  ⟨((s.data.reverse.dropWhile (fun x => x != c)).drop 1).reverse⟩

/-! ## Percent-encoding: Python `urllib.parse.quote` -/

/-- Uppercase hexadecimal digit, as used by Python `quote`. -/
def hexDigit (n : Nat) : Char :=
  if n < 10 then Char.ofNat (48 + n) else Char.ofNat (55 + n)

/-- UTF-8 byte sequence of a code point (Python `quote` encodes
non-safe characters byte by byte in UTF-8). -/
def utf8Bytes (n : Nat) : List Nat :=
  if n < 0x80 then [n]
  else if n < 0x800 then [0xC0 + n / 64, 0x80 + n % 64]
  else if n < 0x10000 then
    [0xE0 + n / 4096, 0x80 + (n / 64) % 64, 0x80 + n % 64]
  else
    [0xF0 + n / 262144, 0x80 + (n / 4096) % 64, 0x80 + (n / 64) % 64,
     0x80 + n % 64]

/-- Percent-escape of one byte: `%XX` with uppercase hex. -/
def percentChars (b : Nat) : List Char :=
  ['%', hexDigit (b / 16), hexDigit (b % 16)]

/-- Characters Python `quote` never escapes: ASCII letters, digits and
`_.-~`. -/
def alwaysSafe (c : Char) : Bool :=
  c.isAlpha || c.isDigit || c == '_' || c == '.' || c == '-' || c == '~'

/-- Encoding of a single character under `quote` with extra safe set
`safe`. -/
def quoteChar (safe : List Char) (c : Char) : List Char :=
  if alwaysSafe c || listContains safe c then [c]
  else (utf8Bytes c.toNat).foldr (fun b acc => percentChars b ++ acc) []

/-- `quote` applied characterwise to a character list. -/
def quoteList (safe : List Char) : List Char → List Char
  | [] => []
  | c :: cs => quoteChar safe c ++ quoteList safe cs

/-- Python `url_quote(s, safe)` as used by the client. -/
def url_quote (s : String) (safe : String) : String :=
  ⟨quoteList safe.data s.data⟩

/-- The safe-character set the client passes to `url_quote`:
the Python literal `'/()$=\',''`. -/
def safeSet : String := "/()$=',"

/-! ## The query normalizer `_update_request_uri_query` -/

/-- Inline query pairs pulled out of a query string, as in the source:
split on `&`, keep only fragments containing `=`, split each such
fragment at its first `=`.  Fragments without `=` are dropped. -/
def parseInlinePairs (qs : String) : List (String × Option String) :=
  (pySplit qs '&').foldl
    (fun acc q =>
      if strContains q '=' then
        acc ++ [((pyPartition q '=').1, some (pyPartition q '=').2)]
      else acc)
    []

/-- The encoding loop of `_update_request_uri_query`: starting from
`path0 + "?"`, append `name + "=" + url_quote(value, safe) + "&"` for
every pair whose value is present (the name is NOT quoted in the
source), then strip the final character (`request.path[:-1]`). -/
def encodeQueryLoop (path0 : String) (query : List (String × Option String)) :
    String :=
  strDropLastChar
    (query.foldl
      (fun acc nv =>
        match nv.2 with
        | some v => acc ++ nv.1 ++ "=" ++ url_quote v safeSet ++ "&"
        | none => acc)
      (path0 ++ "?"))

/-- `_HTTPClient._update_request_uri_query`, lines 205-230 of the source:
pulls an inline query string out of the path, appends its pairs after the
explicit ones, percent-encodes the bare path, and re-renders the merged
query list.  Returns the new `(path, query)` exactly as the source does. -/
def _update_request_uri_query (path : String)
    (query : List (String × Option String)) :
    String × List (String × Option String) :=
  let pq :=
    if strContains path '?' then
      let p := (pyPartition path '?').1
      let qs := (pyPartition path '?').2
      if qs ≠ "" then (p, query ++ parseInlinePairs qs) else (p, query)
    else (path, query)
  let path2 := url_quote pq.1 safeSet
  let path3 := if pq.2 ≠ [] then encodeQueryLoop path2 pq.2 else path2
  (path3, pq.2)

/-- Rendering following the claim text for C5 ("each pair
percent-encoded with safe set `/()$=,'`"): the whole `name=value` pair is
passed through `url_quote` (since `=` is in the safe set, this encodes
both the name and the value).  Used only to compare the claim's wording
against the source behaviour. -/
def encodeQueryLoopClaimC5 (path0 : String)
    (query : List (String × Option String)) : String :=
  strDropLastChar
    (query.foldl
      (fun acc nv =>
        match nv.2 with
        | some v => acc ++ url_quote (nv.1 ++ "=" ++ v) safeSet ++ "&"
        | none => acc)
      (path0 ++ "?"))

/-- The normalizer as the C5 claim words it (pairs fully
percent-encoded); identical to `_update_request_uri_query` otherwise. -/
def updateUriClaimC5 (path : String)
    (query : List (String × Option String)) :
    String × List (String × Option String) :=
  let pq :=
    if strContains path '?' then
      let p := (pyPartition path '?').1
      let qs := (pyPartition path '?').2
      if qs ≠ "" then (p, query ++ parseInlinePairs qs) else (p, query)
    else (path, query)
  let path2 := url_quote pq.1 safeSet
  let path3 := if pq.2 ≠ [] then encodeQueryLoopClaimC5 path2 pq.2 else path2
  (path3, pq.2)

/-- The normalizer as the C6 claim words it: query parameters already
present in the path placed BEFORE the explicit pairs.  Used only to
compare the claim's ordering against the source behaviour. -/
def updateUriClaimC6 (path : String)
    (query : List (String × Option String)) :
    String × List (String × Option String) :=
  let pq :=
    if strContains path '?' then
      let p := (pyPartition path '?').1
      let qs := (pyPartition path '?').2
      if qs ≠ "" then (p, parseInlinePairs qs ++ query) else (p, query)
    else (path, query)
  let path2 := url_quote pq.1 safeSet
  let path3 := if pq.2 ≠ [] then encodeQueryLoop path2 pq.2 else path2
  (path3, pq.2)

/-! ## Data model -/

/-- The mutable request object (`azure.servicemanagement._http.HTTPRequest`):
the fields `perform_request` and its helpers consume.  Python's falsy
test on `protocol_override` means an empty string behaves like "no
override", which the embedding keeps by using `String` with `""` for
absent. -/
structure Request where
  method : String
  host : String
  path : String
  query : List (String × Option String)
  headers : List (String × String)
  body : Option (List Nat)
  protocol_override : String
deriving DecidableEq

/-- The raw response the transport hands back from `getresponse()`:
status, reason, header pairs as sent by the server, the declared content
length (`resp.length`, `none` when the transport declares no explicit
length) and the byte stream available to `read`. -/
structure RawResponse where
  status : Nat
  reason : String
  headers : List (String × String)
  length : Option Nat
  stream : List Nat
deriving DecidableEq

/-- `HTTPResponse` as constructed at line 275 of the source. -/
structure HTTPResponseT where
  status : Nat
  reason : String
  headers : List (String × String)
  body : Option (List Nat)
deriving DecidableEq

/-- The ways an execution of `perform_request` can fail: the
`HTTPError` raised at line 284 (with the full response context), a
transport failure while talking to the server, or the `KeyError` from
`dict(respheaders)['location']` when a 307 carries no location header. -/
inductive PerformError where
  | httpError (status : Nat) (message : String)
      (headers : List (String × String)) (body : Option (List Nat))
  | transportFailure
  | missingLocation
deriving DecidableEq

/-- Connection lifecycle events: `get_connection` opening hop `h`'s
connection and `connection.close()` closing it. -/
inductive Event where
  | openConn (hop : Nat)
  | closeConn (hop : Nat)
deriving DecidableEq

/-! ## Pieces of `perform_request` -/

/-- Lines 258-260: header names lowercased for consistency, values and
order untouched. -/
def lowerHeaders (hs : List (String × String)) : List (String × String) :=
  hs.map (fun nv => (strToLower nv.1, nv.2))

/-- Lines 262-266: body-read semantics.  `resp.read()` yields the whole
stream, `resp.read(n)` its first `n` bytes; with a declared length of
exactly zero `respbody` stays `None`. -/
def readBody (len : Option Nat) (stream : List Nat) : Option (List Nat) :=
  match len with
  | none => some stream
  | some n => if n > 0 then some (stream.take n) else none

/-- Python `dict(pairs)[key]` as an option: a dict built from a pair
list keeps the LAST value bound to each key. -/
def lookupLast (headers : List (String × String)) (key : String) :
    Option String :=
  match headers with
  | [] => none
  | nv :: rest =>
    match lookupLast rest key with
    | some r => some r
    | none => if nv.1 = key then some nv.2 else none

/-- The part of an absolute URL after the first `"://"` marker (empty if
the marker is absent; the client only parses absolute location URLs). -/
def afterSchemeMarker : List Char → List Char
  | [] => []
  | c :: rest =>
    if listStartsWith (c :: rest) "://".data then (c :: rest).drop 3
    else afterSchemeMarker rest

/-- `urlparse(url).hostname` for an absolute URL: the netloc (up to the
first `/`, `?` or `#` after the scheme marker), stripped of userinfo
(after the last `@`) and port (after the first `:`), lowercased —
mirroring Python's `urllib.parse`. -/
def urlparseHostname (url : String) : String :=
  let rest := afterSchemeMarker url.data
  let netloc := rest.takeWhile (fun c => c != '/' && c != '?' && c != '#')
  let hostinfo := afterLastChar ⟨netloc⟩ '@'
  strToLower (pyPartition hostinfo ':').1

/-- `urlparse(url).path` for an absolute URL: from the first `/` after
the netloc up to (excluding) any `?` or `#`. -/
def urlparsePath (url : String) : String :=
  let rest := afterSchemeMarker url.data
  let netloc := rest.takeWhile (fun c => c != '/' && c != '?' && c != '#')
  ⟨(rest.drop netloc.length).takeWhile (fun c => c != '?' && c != '#')⟩

/-- True when `url` contains the `"://"` scheme marker, i.e. is written
as an absolute URL. -/
def isAbsoluteUrl (url : String) : Bool :=
  !(afterSchemeMarker url.data).isEmpty || listStartsWith url.data "://".data

/-- Lines 278-281 of the source applied to redirect target `loc`:
`request.host`/`request.path` are overwritten from `urlparse(loc)` and
the query normalizer is re-run on the new path with the request's
existing query list. -/
def applyRedirect (req : Request) (loc : String) : Request :=
  let host := urlparseHostname loc
  let path := urlparsePath loc
  let pq := _update_request_uri_query path req.query
  { req with host := host, path := pq.1, query := pq.2 }

/-- `_HTTPClient.perform_request`, lines 232-288.  The transport is
abstracted by `responses`, the list of raw responses successive hops
receive; an empty list means the transport fails on this hop (the
failure propagates, as the source catches nothing).  `hop` numbers the
connection opened by this invocation.  The result pairs the outcome
(the returned `HTTPResponse` or the propagated failure) with the trace
of connection open/close events; `connection.close()` sits in a
`finally:` block, so each invocation emits its close after everything
else it does — including, on a 307, after the entire recursive call. -/
def performRequest (req : Request) (responses : List RawResponse) (hop : Nat) :
    Except PerformError HTTPResponseT × List Event :=
  match responses with
  | [] => (Except.error PerformError.transportFailure,
           [Event.openConn hop, Event.closeConn hop])
  | resp :: rest =>
    let status := resp.status
    let respheaders := lowerHeaders resp.headers
    let respbody := readBody resp.length resp.stream
    let response : HTTPResponseT :=
      ⟨status, resp.reason, respheaders, respbody⟩
    if status = 307 then
      match lookupLast respheaders "location" with
      | none => (Except.error PerformError.missingLocation,
                 [Event.openConn hop, Event.closeConn hop])
      | some loc =>
        let inner := performRequest (applyRedirect req loc) rest (hop + 1)
        (inner.1, Event.openConn hop :: inner.2 ++ [Event.closeConn hop])
    else if status ≥ 300 then
      (Except.error
        (PerformError.httpError status resp.reason respheaders respbody),
       [Event.openConn hop, Event.closeConn hop])
    else
      (Except.ok response, [Event.openConn hop, Event.closeConn hop])

/-! ## `send_request_headers` (socket-based variant with proxy tunnel) -/

/-- One buffered header line as `http.client.putheader` renders it. -/
def putheaderLine (name value : String) : String :=
  name ++ ": " ++ value

/-- The Python loop
`for i in connection._buffer: if i.startswith("Host: "): connection._buffer.remove(i)`
with its exact semantics: the iterator advances by index over the list
being mutated, and `remove` deletes the first element equal to the one
found. -/
def pyForRemoveHost (buf : List String) (idx : Nat) : List String :=
  if h : idx < buf.length then
    if strStartsWith buf[idx] "Host: " then
      pyForRemoveHost (buf.erase buf[idx]) (idx + 1)
    else
      pyForRemoveHost buf (idx + 1)
  else buf
termination_by buf.length - idx
decreasing_by
  · have hle : (buf.erase buf[idx]).length ≤ buf.length :=
      (List.erase_sublist _ _).length_le
    omega
  · omega

/-- `_HTTPClient.send_request_headers`, lines 180-195, for the
socket-based (httplib) variant: when a proxy tunnel is configured and no
session is injected, default `Host:` lines are removed from the
connection's outgoing buffer and a single corrected Host header naming
the tunnel target is written; then every request header with a truthy
value is written in order, and a trailing User-Agent header is always
appended.  The result is the final outgoing header buffer. -/
def send_request_headers (useHttplib : Bool) (proxyConfigured : Bool)
    (sessionPresent : Bool) (tunnelHost : String) (tunnelPort : Nat)
    (userAgent : String) (buffer : List String)
    (requestHeaders : List (String × String)) : List String :=
  let buffer1 :=
    if useHttplib && proxyConfigured && !sessionPresent then
      pyForRemoveHost buffer 0 ++
        [putheaderLine "Host" (tunnelHost ++ ":" ++ toString tunnelPort)]
    else buffer
  let buffer2 := requestHeaders.foldl
    (fun b nv => if nv.2 ≠ "" then b ++ [putheaderLine nv.1 nv.2] else b)
    buffer1
  buffer2 ++ [putheaderLine "User-Agent" userAgent]

/-! ## `get_uri` and `get_connection` -/

/-- `http.client.HTTP_PORT`. -/
def HTTP_PORT : Nat := 80

/-- `http.client.HTTPS_PORT`. -/
def HTTPS_PORT : Nat := 443

/-- The protocol `get_uri`/`get_connection` act on: the per-request
override when it is truthy (non-empty), else the client's configured
protocol; lowercased in both functions before use. -/
def effectiveProtocol (clientProtocol : String) (override : String) :
    String :=
  strToLower (if override ≠ "" then override else clientProtocol)

/-- `_HTTPClient.get_uri`, lines 122-128. -/
def get_uri (clientProtocol : String) (req : Request) : String :=
  let protocol := effectiveProtocol clientProtocol req.protocol_override
  let port := if protocol = "http" then HTTP_PORT else HTTPS_PORT
  protocol ++ "://" ++ req.host ++ ":" ++ toString port ++ req.path

/-- The class of connection `get_connection` instantiates in its
httplib branch: `http.client.HTTPConnection` or `HTTPSConnection`. -/
inductive ConnKind where
  | httpConn
  | httpsConn
deriving DecidableEq

/-- The connection value produced by the httplib branch of
`get_connection`: its class plus the host and port it connects to. -/
structure ConnSpec where
  kind : ConnKind
  host : String
  port : Nat
deriving DecidableEq

/-- The final protocol dispatch of `get_connection` (lines 162-168):
`HTTPConnection` exactly when the lowercased protocol is `"http"`,
otherwise `HTTPSConnection`. -/
def mkConn (protocol host : String) (port : Nat) : ConnSpec :=
  if protocol = "http" then ⟨ConnKind.httpConn, host, port⟩
  else ⟨ConnKind.httpsConn, host, port⟩

/-- `_HTTPClient.get_connection`, lines 130-168, restricted to the
socket-based (httplib) branch the legacy client uses by default (no
injected session, `use_httplib` true): an explicit `host:port` in the
request host overrides the protocol-derived port (`none` when Python's
`int()` would reject that port string); with a proxy configured the
connection is opened to the proxy instead of the target.  Certificate
and timeout plumbing carries no logic and is omitted. -/
def get_connection (clientProtocol : String)
    (proxy : Option (String × Nat)) (req : Request) : Option ConnSpec :=
  let protocol := effectiveProtocol clientProtocol req.protocol_override
  let targetPort := if protocol = "http" then HTTP_PORT else HTTPS_PORT
  let hostPort : Option (String × Nat) :=
    if strContains req.host ':' then
      match (afterLastChar req.host ':').toNat? with
      | some p => some (beforeLastChar req.host ':', p)
      | none => none
    else some (req.host, targetPort)
  match hostPort with
  | none => none
  | some hp =>
    match proxy with
    | some pr => some (mkConn protocol pr.1 pr.2)
    | none => some (mkConn protocol hp.1 hp.2)

/-- Number of occurrences of event `e` in a trace. -/
def countEvent (e : Event) : List Event → Nat
  | [] => 0
  | x :: xs => (if x = e then 1 else 0) + countEvent e xs

/-- Index of the first occurrence of `e` in a trace (the trace length
when absent). -/
def eventIndex (e : Event) : List Event → Nat
  | [] => 0
  | x :: xs => if x = e then 0 else eventIndex e xs + 1

/-! ## Helper lemmas -/

theorem strData_append (a b : String) : (a ++ b).data = a.data ++ b.data := by
  cases a
  cases b
  rfl

theorem listStartsWith_nil (l : List Char) : listStartsWith l [] = true := by
  cases l <;> rfl

theorem listStartsWith_append_self (p r : List Char) :
    listStartsWith (p ++ r) p = true := by
  induction p with
  | nil => simp [listStartsWith_nil]
  | cons x xs ih => simp [listStartsWith, ih]

theorem listStartsWith_cons_false (x p : Char) (xs ps : List Char)
    (h : x ≠ p) : listStartsWith (x :: xs) (p :: ps) = false := by
  simp [listStartsWith, h]

theorem listContains_middle (l r : List Char) (c : Char) :
    listContains (l ++ c :: r) c = true := by
  induction l with
  | nil => simp [listContains]
  | cons x xs ih => simp [listContains, ih]

theorem takeUntil_middle (l r : List Char) (c : Char)
    (h : listContains l c = false) : takeUntilChar (l ++ c :: r) c = l := by
  induction l with
  | nil => simp [takeUntilChar]
  | cons x xs ih =>
    simp only [listContains, Bool.or_eq_false_iff, beq_eq_false_iff_ne,
      ne_eq] at h
    simp [takeUntilChar, h.1, ih h.2]

theorem afterFirst_middle (l r : List Char) (c : Char)
    (h : listContains l c = false) : afterFirstChar (l ++ c :: r) c = r := by
  induction l with
  | nil => simp [afterFirstChar]
  | cons x xs ih =>
    simp only [listContains, Bool.or_eq_false_iff, beq_eq_false_iff_ne,
      ne_eq] at h
    simp [afterFirstChar, h.1, ih h.2]

theorem data_mid (p qs : String) :
    (p ++ "?" ++ qs).data = p.data ++ '?' :: qs.data := by
  rw [strData_append, strData_append]
  rw [show ("?" : String).data = ['?'] from rfl]
  simp

theorem pyPartition_split (p qs : String) (h : strContains p '?' = false) :
    pyPartition (p ++ "?" ++ qs) '?' = (p, qs) := by
  unfold pyPartition
  rw [data_mid, takeUntil_middle _ _ _ h, afterFirst_middle _ _ _ h]

theorem strContains_mid (p qs : String) :
    strContains (p ++ "?" ++ qs) '?' = true := by
  unfold strContains
  rw [data_mid]
  exact listContains_middle _ _ _

theorem countEvent_append (e : Event) (l1 l2 : List Event) :
    countEvent e (l1 ++ l2) = countEvent e l1 + countEvent e l2 := by
  induction l1 with
  | nil => simp [countEvent]
  | cons x xs ih => simp [countEvent, ih]; omega

theorem performRequest_cons_redirect (req : Request) (resp : RawResponse)
    (rest : List RawResponse) (hop : Nat) (loc : String)
    (h307 : resp.status = 307)
    (hl : lookupLast (lowerHeaders resp.headers) "location" = some loc) :
    performRequest req (resp :: rest) hop =
      ((performRequest (applyRedirect req loc) rest (hop + 1)).1,
       Event.openConn hop ::
         (performRequest (applyRedirect req loc) rest (hop + 1)).2 ++
         [Event.closeConn hop]) := by
  simp [performRequest, h307, hl]

theorem performRequest_cons_missing (req : Request) (resp : RawResponse)
    (rest : List RawResponse) (hop : Nat)
    (h307 : resp.status = 307)
    (hl : lookupLast (lowerHeaders resp.headers) "location" = none) :
    performRequest req (resp :: rest) hop =
      (Except.error PerformError.missingLocation,
       [Event.openConn hop, Event.closeConn hop]) := by
  simp [performRequest, h307, hl]

theorem performRequest_cons_httpError (req : Request) (resp : RawResponse)
    (rest : List RawResponse) (hop : Nat)
    (h307 : resp.status ≠ 307) (hge : resp.status ≥ 300) :
    performRequest req (resp :: rest) hop =
      (Except.error (PerformError.httpError resp.status resp.reason
          (lowerHeaders resp.headers) (readBody resp.length resp.stream)),
       [Event.openConn hop, Event.closeConn hop]) := by
  simp [performRequest, h307, hge]

theorem performRequest_cons_normal (req : Request) (resp : RawResponse)
    (rest : List RawResponse) (hop : Nat)
    (h307 : resp.status ≠ 307) (hge : ¬ resp.status ≥ 300) :
    performRequest req (resp :: rest) hop =
      (Except.ok ⟨resp.status, resp.reason, lowerHeaders resp.headers,
          readBody resp.length resp.stream⟩,
       [Event.openConn hop, Event.closeConn hop]) := by
  simp [performRequest, h307, hge]

theorem performRequest_ok_status_lt_300 :
    ∀ (rs : List RawResponse) (req : Request) (hop : Nat) (r : HTTPResponseT),
      (performRequest req rs hop).1 = Except.ok r → r.status < 300 := by
  intro rs
  induction rs with
  | nil =>
    intro req hop r h
    simp [performRequest] at h
  | cons resp rest ih =>
    intro req hop r h
    by_cases h307 : resp.status = 307
    · rcases hl : lookupLast (lowerHeaders resp.headers) "location" with _ | loc
      · rw [performRequest_cons_missing req resp rest hop h307 hl] at h
        simp at h
      · rw [performRequest_cons_redirect req resp rest hop loc h307 hl] at h
        exact ih _ _ _ h
    · by_cases hge : resp.status ≥ 300
      · rw [performRequest_cons_httpError req resp rest hop h307 hge] at h
        simp at h
      · rw [performRequest_cons_normal req resp rest hop h307 hge] at h
        have h5 : Except.ok (⟨resp.status, resp.reason,
            lowerHeaders resp.headers,
            readBody resp.length resp.stream⟩ : HTTPResponseT) =
            Except.ok r := h
        have h6 := Except.ok.inj h5
        rw [← h6]
        exact Nat.lt_of_not_le hge

theorem performRequest_no_events_below :
    ∀ (rs : List RawResponse) (req : Request) (hop k : Nat), k < hop →
      countEvent (Event.openConn k) (performRequest req rs hop).2 = 0 ∧
      countEvent (Event.closeConn k) (performRequest req rs hop).2 = 0 := by
  intro rs
  induction rs with
  | nil =>
    intro req hop k hk
    have hne : hop ≠ k := by omega
    simp [performRequest, countEvent, hne]
  | cons resp rest ih =>
    intro req hop k hk
    have hne : hop ≠ k := by omega
    by_cases h307 : resp.status = 307
    · rcases hl : lookupLast (lowerHeaders resp.headers) "location" with _ | loc
      · rw [performRequest_cons_missing req resp rest hop h307 hl]
        simp [countEvent, hne]
      · rw [performRequest_cons_redirect req resp rest hop loc h307 hl]
        have hin := ih (applyRedirect req loc) (hop + 1) k (by omega)
        simp [countEvent, countEvent_append, hne, hin.1, hin.2]
    · by_cases hge : resp.status ≥ 300
      · rw [performRequest_cons_httpError req resp rest hop h307 hge]
        simp [countEvent, hne]
      · rw [performRequest_cons_normal req resp rest hop h307 hge]
        simp [countEvent, hne]

/-! ## Claim theorems -/

/-- Claim C1: for every response whose status is in [200, 300),
`perform_request` returns a `Response` whose status, reason, headers and
body equal the transport's raw values, except that every header name is
lowercased (values unchanged) and header order is preserved (the header
list is a pointwise `map` that lowercases only the name), the body being
what the declared-length read semantics produce. -/
theorem perform_request_success_returns_raw (req : Request)
    (resp : RawResponse) (rest : List RawResponse) (hop : Nat)
    (h1 : 200 ≤ resp.status) (h2 : resp.status < 300) :
    (performRequest req (resp :: rest) hop).1 =
      Except.ok ⟨resp.status, resp.reason,
        resp.headers.map (fun nv => (strToLower nv.1, nv.2)),
        readBody resp.length resp.stream⟩ := by
  have h307 : resp.status ≠ 307 := by omega
  have hge : ¬ resp.status ≥ 300 := by omega
  rw [performRequest_cons_normal req resp rest hop h307 hge]
  rfl

/-- Witness for C1 at a concrete 200 response. -/
theorem perform_request_success_returns_raw_witness :
    (performRequest ⟨"GET", "host1.example", "/p", [], [], none, ""⟩
        [⟨200, "OK", [("Content-Type", "application/xml")], some 0, []⟩]
        0).1 =
      Except.ok ⟨200, "OK", [("content-type", "application/xml")], none⟩ :=
  perform_request_success_returns_raw
    ⟨"GET", "host1.example", "/p", [], [], none, ""⟩
    ⟨200, "OK", [("Content-Type", "application/xml")], some 0, []⟩
    [] 0 (by decide) (by decide)

/-- Claim C2: for every response whose status is at least 300 and not
307, `perform_request` fails with an `HTTPError` carrying exactly the
original status, reason message, lowercased header pairs and body, and
performs no retry — the whole execution is a single hop whose trace is
just its own open and close. -/
theorem perform_request_error_propagates (req : Request)
    (resp : RawResponse) (rest : List RawResponse) (hop : Nat)
    (h1 : resp.status ≥ 300) (h2 : resp.status ≠ 307) :
    performRequest req (resp :: rest) hop =
      (Except.error (PerformError.httpError resp.status resp.reason
          (resp.headers.map (fun nv => (strToLower nv.1, nv.2)))
          (readBody resp.length resp.stream)),
       [Event.openConn hop, Event.closeConn hop]) := by
  rw [performRequest_cons_httpError req resp rest hop h2 h1]
  rfl

/-- Witness for C2 at a concrete 404 response. -/
theorem perform_request_error_propagates_witness :
    performRequest ⟨"GET", "host1.example", "/p", [], [], none, ""⟩
        [⟨404, "Not Found", [("X-Err", "e")], some 2, [65, 66, 67]⟩] 0 =
      (Except.error (PerformError.httpError 404 "Not Found"
          [("x-err", "e")] (some [65, 66])),
       [Event.openConn 0, Event.closeConn 0]) :=
  perform_request_error_propagates
    ⟨"GET", "host1.example", "/p", [], [], none, ""⟩
    ⟨404, "Not Found", [("X-Err", "e")], some 2, [65, 66, 67]⟩
    [] 0 (by decide) (by decide)

/-- Claim C3: for every response with status 307 carrying a `location`
header that is an absolute URL, `perform_request` overwrites the
request's host and path with the location's host and path, re-runs the
query normalizer on the new path, re-issues the request (same request
object) against the new target, returns that subsequent hop's result,
and never returns a 307 `Response`. -/
theorem perform_request_follows_307 (req : Request) (resp : RawResponse)
    (rest : List RawResponse) (hop : Nat) (loc : String)
    (h307 : resp.status = 307)
    (_habs : isAbsoluteUrl loc = true)
    (hloc : lookupLast (lowerHeaders resp.headers) "location" = some loc) :
    (performRequest req (resp :: rest) hop).1 =
        (performRequest (applyRedirect req loc) rest (hop + 1)).1
    ∧ (applyRedirect req loc).host = urlparseHostname loc
    ∧ (applyRedirect req loc).path =
        (_update_request_uri_query (urlparsePath loc) req.query).1
    ∧ (applyRedirect req loc).query =
        (_update_request_uri_query (urlparsePath loc) req.query).2
    ∧ ∀ r, (performRequest req (resp :: rest) hop).1 = Except.ok r →
        r.status ≠ 307 := by
  refine ⟨?_, rfl, rfl, rfl, ?_⟩
  · rw [performRequest_cons_redirect req resp rest hop loc h307 hloc]
  · intro r hr
    have := performRequest_ok_status_lt_300 _ _ _ _ hr
    omega

/-- Witness for C3: a 307 with `location: https://host2/newpath`
followed by a 200 yields the second hop's response. -/
theorem perform_request_follows_307_witness :
    (performRequest ⟨"GET", "host1.example", "/p", [], [], none, ""⟩
        [⟨307, "Temporary Redirect",
            [("Location", "https://host2/newpath")], some 0, []⟩,
         ⟨200, "OK", [], some 0, []⟩] 0).1 =
      Except.ok ⟨200, "OK", [], none⟩ := by
  have h := perform_request_follows_307
    ⟨"GET", "host1.example", "/p", [], [], none, ""⟩
    ⟨307, "Temporary Redirect",
        [("Location", "https://host2/newpath")], some 0, []⟩
    [⟨200, "OK", [], some 0, []⟩] 0 "https://host2/newpath"
    (by decide) (by decide) (by decide)
  rw [h.1]
  rfl

/-- Claim C9: in every execution of `perform_request` the connection's
`close()` runs exactly once (the `finally:` block), whichever way the
execution ends — returned `Response`, raised `HTTPError`, missing
location header, or propagated transport failure — and the same holds
hop by hop for every connection the recursive redirect chain opens:
each hop's close count equals its open count and never exceeds one. -/
theorem perform_request_closes_exactly_once (req : Request)
    (rs : List RawResponse) (hop : Nat) :
    countEvent (Event.closeConn hop) (performRequest req rs hop).2 = 1
    ∧ ∀ k,
        countEvent (Event.closeConn k) (performRequest req rs hop).2 =
          countEvent (Event.openConn k) (performRequest req rs hop).2
        ∧ countEvent (Event.closeConn k) (performRequest req rs hop).2 ≤ 1 := by
  induction rs generalizing req hop with
  | nil =>
    constructor
    · simp [performRequest, countEvent]
    · intro k
      by_cases hk : k = hop
      · simp [performRequest, countEvent, hk]
      · have h1 : Event.openConn hop ≠ Event.openConn k := by simp [hk]; omega
        have h2 : Event.closeConn hop ≠ Event.closeConn k := by
          simp [hk]; omega
        simp [performRequest, countEvent, h1, h2]
  | cons resp rest ih =>
    by_cases h307 : resp.status = 307
    · rcases hl : lookupLast (lowerHeaders resp.headers) "location" with _ | loc
      · rw [performRequest_cons_missing req resp rest hop h307 hl]
        constructor
        · simp [countEvent]
        · intro k
          by_cases hk : k = hop
          · simp [countEvent, hk]
          · have h1 : Event.openConn hop ≠ Event.openConn k := by
              simp [hk]; omega
            have h2 : Event.closeConn hop ≠ Event.closeConn k := by
              simp [hk]; omega
            simp [countEvent, h1, h2]
      · rw [performRequest_cons_redirect req resp rest hop loc h307 hl]
        have hbelow := performRequest_no_events_below rest
          (applyRedirect req loc) (hop + 1) hop (by omega)
        have hih := ih (applyRedirect req loc) (hop + 1)
        constructor
        · simp [countEvent, countEvent_append, hbelow.2]
        · intro k
          by_cases hk : k = hop
          · subst hk
            simp [countEvent, countEvent_append, hbelow.1, hbelow.2]
          · have h1 : Event.openConn hop ≠ Event.openConn k := by
              simp; omega
            have h2 : Event.closeConn hop ≠ Event.closeConn k := by
              simp; omega
            have hk2 := (hih.2) k
            constructor
            · simp [countEvent, countEvent_append, h1, h2, hk2.1]
            · have e1 : countEvent (Event.closeConn k)
                  (Event.openConn hop ::
                    (performRequest (applyRedirect req loc) rest (hop + 1)).2 ++
                    [Event.closeConn hop]) =
                  countEvent (Event.closeConn k)
                    (performRequest (applyRedirect req loc) rest (hop + 1)).2 := by
                simp [countEvent, countEvent_append, h2]
              rw [e1]
              exact hk2.2
    · have key : performRequest req (resp :: rest) hop =
          (if resp.status ≥ 300 then
              (Except.error (PerformError.httpError resp.status resp.reason
                  (lowerHeaders resp.headers)
                  (readBody resp.length resp.stream)),
               [Event.openConn hop, Event.closeConn hop])
            else
              (Except.ok ⟨resp.status, resp.reason, lowerHeaders resp.headers,
                  readBody resp.length resp.stream⟩,
               [Event.openConn hop, Event.closeConn hop])) := by
        by_cases hge : resp.status ≥ 300
        · rw [performRequest_cons_httpError req resp rest hop h307 hge,
            if_pos hge]
        · rw [performRequest_cons_normal req resp rest hop h307 hge,
            if_neg hge]
      have htr : (performRequest req (resp :: rest) hop).2 =
          [Event.openConn hop, Event.closeConn hop] := by
        rw [key]
        by_cases hge : resp.status ≥ 300 <;> simp [hge]
      rw [htr]
      constructor
      · simp [countEvent]
      · intro k
        by_cases hk : k = hop
        · simp [countEvent, hk]
        · have h1 : Event.openConn hop ≠ Event.openConn k := by simp [hk]; omega
          have h2 : Event.closeConn hop ≠ Event.closeConn k := by
            simp [hk]; omega
          simp [countEvent, h1, h2]

/-- Claim C4 (amended): the connection an invocation of
`perform_request` opens is its trace's first event and its close the
trace's last event, so it is always closed before the invocation
returns or propagates failure; but on a 307 redirect the next hop's
connection is opened — and the whole recursive chain completes — while
the current hop's connection is still open (`connection.close()` sits
in a `finally:` around the recursive call), connections closing in
reverse order of opening. -/
theorem perform_request_close_is_last (req : Request)
    (rs : List RawResponse) (hop : Nat) :
    ∃ mid, (performRequest req rs hop).2 =
      Event.openConn hop :: mid ++ [Event.closeConn hop] := by
  cases rs with
  | nil => exact ⟨[], rfl⟩
  | cons resp rest =>
    by_cases h307 : resp.status = 307
    · rcases hl : lookupLast (lowerHeaders resp.headers) "location" with _ | loc
      · exact ⟨[],
          by rw [performRequest_cons_missing req resp rest hop h307 hl]; rfl⟩
      · exact ⟨(performRequest (applyRedirect req loc) rest (hop + 1)).2,
          by rw [performRequest_cons_redirect req resp rest hop loc h307 hl]⟩
    · by_cases hge : resp.status ≥ 300
      · exact ⟨[],
          by rw [performRequest_cons_httpError req resp rest hop h307 hge]; rfl⟩
      · exact ⟨[],
          by rw [performRequest_cons_normal req resp rest hop h307 hge]; rfl⟩

/-- Counterexample to claim C4 as stated: on a 307 redirect hop the
next hop's connection is opened BEFORE the current hop's connection is
closed — the trace is open 0, open 1, close 1, close 0, and the first
open of hop 1 strictly precedes the close of hop 0. -/
theorem perform_request_redirect_close_order :
    (performRequest ⟨"GET", "host1.example", "/p", [], [], none, ""⟩
        [⟨307, "Temporary Redirect",
            [("Location", "https://host2/newpath")], some 0, []⟩,
         ⟨200, "OK", [], some 0, []⟩] 0).2 =
      [Event.openConn 0, Event.openConn 1, Event.closeConn 1,
       Event.closeConn 0]
    ∧ eventIndex (Event.openConn 1)
        (performRequest ⟨"GET", "host1.example", "/p", [], [], none, ""⟩
          [⟨307, "Temporary Redirect",
              [("Location", "https://host2/newpath")], some 0, []⟩,
           ⟨200, "OK", [], some 0, []⟩] 0).2 <
      eventIndex (Event.closeConn 0)
        (performRequest ⟨"GET", "host1.example", "/p", [], [], none, ""⟩
          [⟨307, "Temporary Redirect",
              [("Location", "https://host2/newpath")], some 0, []⟩,
           ⟨200, "OK", [], some 0, []⟩] 0).2 := by
  constructor
  · rfl
  · decide

/-- Claim C7: the body-read semantics of `perform_request` (lines
262-266): no declared length means read the whole stream; a positive
declared length `n` means read exactly the first `n` bytes (exactly `n`
bytes whenever the stream holds at least `n`); a declared length of
exactly zero means the body is absent (`none`), not the empty byte
sequence. -/
theorem read_body_length_semantics (n : Nat) (s : List Nat) (h : 0 < n) :
    readBody none s = some s
    ∧ readBody (some n) s = some (s.take n)
    ∧ (n ≤ s.length → ∃ b, readBody (some n) s = some b ∧ b.length = n)
    ∧ readBody (some 0) s = none
    ∧ readBody (some 0) s ≠ some [] := by
  refine ⟨rfl, by simp [readBody, h], ?_, rfl, by simp [readBody]⟩
  intro hle
  refine ⟨s.take n, by simp [readBody, h], ?_⟩
  simp [List.length_take]
  omega

/-- Witness for C7: declared length 3 on a 4-byte stream reads exactly
the first 3 bytes. -/
theorem read_body_length_semantics_witness :
    readBody (some 3) [10, 11, 12, 13] = some [10, 11, 12] :=
  (read_body_length_semantics 3 [10, 11, 12, 13] (by decide)).2.1

/-- Counterexample to claim C5 as stated: the source percent-encodes
only the VALUE of each query pair (line 227: `name + '=' +
url_quote(value, ...)`), not the pair as a whole, so a name containing
a space is transmitted unencoded, while the claim's "each pair
percent-encoded" rendering (`updateUriClaimC5`) would escape it. -/
theorem update_uri_query_name_not_encoded :
    (_update_request_uri_query "/a?x=1" [("y y", some "2")]).1 =
      "/a?y y=2&x=1"
    ∧ (updateUriClaimC5 "/a?x=1" [("y y", some "2")]).1 =
      "/a?y%20y=2&x=1"
    ∧ (_update_request_uri_query "/a?x=1" [("y y", some "2")]).1 ≠
      (updateUriClaimC5 "/a?x=1" [("y y", some "2")]).1 := by
  refine ⟨by decide, by decide, by decide⟩

/-- Claim C5 (amended): for every request whose path contains an inline
query string and whose query list holds explicit pairs, the query
normalizer splits the path at the first `?`, splits the query string on
`&` then `=` (fragments without `=` are dropped), and appends each
inline pair in order after the existing explicit pairs, so explicit
pairs precede inline pairs in the final encoded path; each VALUE is
percent-encoded with safe set `/()$=,'` while parameter names are left
unencoded.  E.g. path `"/a?x=1"` with explicit query `[("y","2")]`
normalizes to `"/a?y=2&x=1"`, and with explicit query
`[("n m","v w")]` to `"/a?n m=v%20w&x=1"`. -/
theorem update_uri_query_merge (p qs : String)
    (q : List (String × Option String))
    (hp : strContains p '?' = false) (hqs : qs ≠ "") :
    _update_request_uri_query (p ++ "?" ++ qs) q =
      (if q ++ parseInlinePairs qs ≠ [] then
          encodeQueryLoop (url_quote p safeSet) (q ++ parseInlinePairs qs)
        else url_quote p safeSet,
       q ++ parseInlinePairs qs)
    ∧ _update_request_uri_query "/a?x=1" [("y", some "2")] =
        ("/a?y=2&x=1", [("y", some "2"), ("x", some "1")])
    ∧ _update_request_uri_query "/a?x=1" [("n m", some "v w")] =
        ("/a?n m=v%20w&x=1", [("n m", some "v w"), ("x", some "1")]) := by
  refine ⟨?_, by decide, by decide⟩
  unfold _update_request_uri_query
  rw [strContains_mid p qs, pyPartition_split p qs hp]
  simp [hqs]

/-- Witness for C5 (amended) at path `"/a" ++ "?" ++ "x=1"` with one
explicit pair. -/
theorem update_uri_query_merge_witness :
    _update_request_uri_query ("/a" ++ "?" ++ "x=1") [("y", some "2")] =
      (encodeQueryLoop (url_quote "/a" safeSet)
          ([("y", some "2")] ++ parseInlinePairs "x=1"),
       [("y", some "2")] ++ parseInlinePairs "x=1") := by
  have h := (update_uri_query_merge "/a" "x=1" [("y", some "2")]
    (by decide) (by decide)).1
  rw [h]
  decide

/-- Counterexample to claim C6 as stated: query parameters that were
present in the path do NOT precede merged explicit parameters — the
source appends inline pairs AFTER the explicit ones, so the inline
`x=1` ends up last, while the claim's ordering (`updateUriClaimC6`,
inline pairs first) would put it first. -/
theorem update_uri_query_inline_last :
    (_update_request_uri_query "/a?x=1" [("y", some "2")]).1 =
      "/a?y=2&x=1"
    ∧ (updateUriClaimC6 "/a?x=1" [("y", some "2")]).1 = "/a?x=1&y=2"
    ∧ (_update_request_uri_query "/a?x=1" [("y", some "2")]).1 ≠
      (updateUriClaimC6 "/a?x=1" [("y", some "2")]).1 := by
  refine ⟨by decide, by decide, by decide⟩

/-- Claim C6 (amended): for every request whose path contains an inline
query string and whose query list already holds explicit pairs, the
EXPLICIT pairs precede the parameters that were present in the path,
both in the merged query list and in the final encoded path (the
reverse of the claimed order). -/
theorem update_uri_query_explicit_first (p qs : String)
    (q : List (String × Option String))
    (hp : strContains p '?' = false) (hqs : qs ≠ "") :
    (_update_request_uri_query (p ++ "?" ++ qs) q).2 =
      q ++ parseInlinePairs qs
    ∧ (_update_request_uri_query "/a?x=1" [("y", some "2")]).1 =
        "/a?y=2&x=1" := by
  refine ⟨?_, by decide⟩
  unfold _update_request_uri_query
  rw [strContains_mid p qs, pyPartition_split p qs hp]
  simp [hqs]

/-- Witness for C6 (amended): the merged query of
`"/a" ++ "?" ++ "x=1"` with explicit `[("y","2")]` is the explicit pair
followed by the inline one. -/
theorem update_uri_query_explicit_first_witness :
    (_update_request_uri_query ("/a" ++ "?" ++ "x=1")
        [("y", some "2")]).2 =
      [("y", some "2"), ("x", some "1")] := by
  have h := (update_uri_query_explicit_first "/a" "x=1" [("y", some "2")]
    (by decide) (by decide)).1
  rw [h]
  decide

theorem pyForRemoveHost_no_host (buf : List String) (idx : Nat)
    (h : ∀ x ∈ buf, strStartsWith x "Host: " = false) :
    pyForRemoveHost buf idx = buf := by
  have key : ∀ n i, buf.length - i ≤ n → pyForRemoveHost buf i = buf := by
    intro n
    induction n with
    | zero =>
      intro i hn
      rw [pyForRemoveHost]
      have hi : ¬ i < buf.length := by omega
      simp [hi]
    | succ m ih =>
      intro i hn
      rw [pyForRemoveHost]
      by_cases hi : i < buf.length
      · have hx := h buf[i] (List.getElem_mem hi)
        simp only [hi, dif_pos, hx, if_neg, Bool.false_eq_true,
          not_false_eq_true]
        exact ih (i + 1) (by omega)
      · simp [hi]
  exact key (buf.length - idx) idx (Nat.le_refl _)

theorem pyForRemoveHost_removes_single (pre post : List String)
    (hl : String)
    (hpre : ∀ x ∈ pre, strStartsWith x "Host: " = false)
    (hpost : ∀ x ∈ post, strStartsWith x "Host: " = false)
    (hh : strStartsWith hl "Host: " = true) :
    pyForRemoveHost (pre ++ hl :: post) 0 = pre ++ post := by
  have hnotin : hl ∉ pre := by
    intro hmem
    have := hpre hl hmem
    rw [hh] at this
    cases this
  have hrest : ∀ x ∈ pre ++ post, strStartsWith x "Host: " = false := by
    intro x hx
    rcases List.mem_append.mp hx with h1 | h2
    · exact hpre x h1
    · exact hpost x h2
  have key : ∀ n i, i ≤ pre.length → pre.length - i ≤ n →
      pyForRemoveHost (pre ++ hl :: post) i = pre ++ post := by
    intro n
    induction n with
    | zero =>
      intro i hle hn
      have hi : i = pre.length := by omega
      subst hi
      rw [pyForRemoveHost]
      have hlt : pre.length < (pre ++ hl :: post).length := by
        simp
      have hget : (pre ++ hl :: post)[pre.length] = hl := by
        rw [List.getElem_append_right (Nat.le_refl _)]
        simp
      simp only [hlt, dif_pos, hget, hh, if_pos]
      have herase : (pre ++ hl :: post).erase hl = pre ++ post := by
        rw [List.erase_append_right _ hnotin, List.erase_cons_head]
      rw [herase]
      exact pyForRemoveHost_no_host _ _ hrest
    | succ m ih =>
      intro i hle hn
      by_cases heq : i = pre.length
      · subst heq
        rw [pyForRemoveHost]
        have hlt : pre.length < (pre ++ hl :: post).length := by
          simp
        have hget : (pre ++ hl :: post)[pre.length] = hl := by
          rw [List.getElem_append_right (Nat.le_refl _)]
          simp
        simp only [hlt, dif_pos, hget, hh, if_pos]
        have herase : (pre ++ hl :: post).erase hl = pre ++ post := by
          rw [List.erase_append_right _ hnotin, List.erase_cons_head]
        rw [herase]
        exact pyForRemoveHost_no_host _ _ hrest
      · have hilt : i < pre.length := by omega
        rw [pyForRemoveHost]
        have hlt : i < (pre ++ hl :: post).length := by
          simp
          omega
        have hget : (pre ++ hl :: post)[i] = pre[i] := by
          rw [List.getElem_append_left hilt]
        have hx := hpre pre[i] (List.getElem_mem hilt)
        simp only [hlt, dif_pos, hget, hx, if_neg, Bool.false_eq_true,
          not_false_eq_true]
        exact ih (i + 1) (by omega) (by omega)
  exact key pre.length 0 (by omega) (by omega)

theorem putheaderLine_host_starts (v : String) :
    strStartsWith (putheaderLine "Host" v) "Host: " = true := by
  unfold strStartsWith putheaderLine
  rw [strData_append, strData_append]
  rw [show ("Host" : String).data ++ (": " : String).data =
    ("Host: " : String).data from rfl]
  exact listStartsWith_append_self _ _

theorem putheaderLine_ua_not_host (ua : String) :
    strStartsWith (putheaderLine "User-Agent" ua) "Host: " = false := by
  unfold strStartsWith putheaderLine
  rw [strData_append, strData_append]
  rw [show ("User-Agent" : String).data = 'U' :: ("ser-Agent" : String).data
    from rfl]
  rw [show ("Host: " : String).data = 'H' :: ("ost: " : String).data
    from rfl]
  simp only [List.cons_append]
  exact listStartsWith_cons_false _ _ _ _ (by decide)

theorem filter_header_foldl (hs : List (String × String)) :
    ∀ b : List String,
      (∀ nv ∈ hs, strStartsWith (putheaderLine nv.1 nv.2) "Host: " = false) →
      (hs.foldl
          (fun b nv =>
            if nv.2 ≠ "" then b ++ [putheaderLine nv.1 nv.2] else b)
          b).filter (fun l => strStartsWith l "Host: ") =
        b.filter (fun l => strStartsWith l "Host: ") := by
  induction hs with
  | nil => intro b _; rfl
  | cons nv rest ih =>
    intro b h
    simp only [List.foldl_cons]
    rw [ih _ (fun x hx => h x (List.mem_cons_of_mem _ hx))]
    by_cases hv : nv.2 ≠ ""
    · simp [hv, List.filter_append, h nv (List.mem_cons_self _ _)]
    · simp [hv]

/-- Claim C8: on the socket-based (httplib) variant with a proxy tunnel
configured (and no injected session) and a single default Host line
pre-populated in the connection's outgoing buffer,
`send_request_headers` removes the default Host line and writes exactly
one Host header, whose value is the tunnel target's `host:port`; as
long as the caller-supplied request headers carry no Host header of
their own, at most one Host header — exactly one — is ever
transmitted. -/
theorem send_request_headers_single_host (pre post : List String)
    (hostLine tunnelHost : String) (tunnelPort : Nat) (userAgent : String)
    (requestHeaders : List (String × String))
    (hpre : ∀ x ∈ pre, strStartsWith x "Host: " = false)
    (hpost : ∀ x ∈ post, strStartsWith x "Host: " = false)
    (hhl : strStartsWith hostLine "Host: " = true)
    (hreq : ∀ nv ∈ requestHeaders,
        strStartsWith (putheaderLine nv.1 nv.2) "Host: " = false) :
    (send_request_headers true true false tunnelHost tunnelPort userAgent
        (pre ++ hostLine :: post) requestHeaders).filter
        (fun l => strStartsWith l "Host: ") =
      [putheaderLine "Host" (tunnelHost ++ ":" ++ toString tunnelPort)] := by
  unfold send_request_headers
  simp only [Bool.and_self, Bool.not_false, Bool.and_true, if_pos]
  rw [pyForRemoveHost_removes_single pre post hostLine hpre hpost hhl]
  rw [List.filter_append, filter_header_foldl requestHeaders _ hreq]
  rw [List.filter_append]
  have h1 : (pre ++ post).filter (fun l => strStartsWith l "Host: ") = [] := by
    rw [List.filter_eq_nil_iff]
    intro a ha
    rcases List.mem_append.mp ha with h1 | h2
    · simp [hpre a h1]
    · simp [hpost a h2]
  have h2 : [putheaderLine "Host"
      (tunnelHost ++ ":" ++ toString tunnelPort)].filter
      (fun l => strStartsWith l "Host: ") =
      [putheaderLine "Host" (tunnelHost ++ ":" ++ toString tunnelPort)] := by
    simp [putheaderLine_host_starts]
  have h3 : [putheaderLine "User-Agent" userAgent].filter
      (fun l => strStartsWith l "Host: ") = [] := by
    simp [putheaderLine_ua_not_host]
  rw [h1, h2, h3]
  simp

/-- Witness for C8 on a concrete buffer and header list. -/
theorem send_request_headers_single_host_witness :
    (send_request_headers true true false "target.example" 443 "agent"
        (["Accept: xml"] ++ "Host: orig.example" :: ["X-Y: z"])
        [("x-ms-version", "2014-06-01")]).filter
        (fun l => strStartsWith l "Host: ") =
      [putheaderLine "Host" ("target.example" ++ ":" ++ toString 443)] :=
  send_request_headers_single_host ["Accept: xml"] ["X-Y: z"]
    "Host: orig.example" "target.example" 443 "agent"
    [("x-ms-version", "2014-06-01")]
    (by decide) (by decide) (by decide) (by decide)

/-- Claim C10: for every protocol string (client default or per-request
override) whose lowercase form is not exactly `"http"` — including
invalid values such as `"ftp"` — `get_uri` renders port 443 and
`get_connection` builds an HTTPS-style connection on port 443; only a
case-insensitive `"http"` yields port 80 and a plain HTTP connection
(request hosts without an explicit `:port`, proxying disabled). -/
theorem protocol_selects_port_and_kind (clientProtocol : String)
    (req : Request) (hhost : strContains req.host ':' = false) :
    (effectiveProtocol clientProtocol req.protocol_override ≠ "http" →
      get_uri clientProtocol req =
        effectiveProtocol clientProtocol req.protocol_override ++ "://" ++
          req.host ++ ":" ++ toString HTTPS_PORT ++ req.path
      ∧ get_connection clientProtocol none req =
          some ⟨ConnKind.httpsConn, req.host, HTTPS_PORT⟩)
    ∧ (effectiveProtocol clientProtocol req.protocol_override = "http" →
      get_uri clientProtocol req =
        effectiveProtocol clientProtocol req.protocol_override ++ "://" ++
          req.host ++ ":" ++ toString HTTP_PORT ++ req.path
      ∧ get_connection clientProtocol none req =
          some ⟨ConnKind.httpConn, req.host, HTTP_PORT⟩) := by
  constructor
  · intro hne
    constructor
    · unfold get_uri
      simp [hne]
    · unfold get_connection mkConn
      simp [hhost, hne]
  · intro heq
    constructor
    · unfold get_uri
      simp [heq]
    · unfold get_connection mkConn
      simp [hhost, heq]

/-- Witness for C10 with the invalid protocol override `"ftp"` (selects
HTTPS and port 443) on a colon-free host. -/
theorem protocol_selects_port_and_kind_witness :
    get_connection "https" none
        ⟨"GET", "h.example", "/p", [], [], none, "ftp"⟩ =
      some ⟨ConnKind.httpsConn, "h.example", HTTPS_PORT⟩ :=
  ((protocol_selects_port_and_kind "https"
      ⟨"GET", "h.example", "/p", [], [], none, "ftp"⟩
      (by decide)).1 (by decide)).2
